import Mathlib

/-!
# Verification of the gap-detection / segmentation / resampling engine

Shallow embedding of `valveData.py`'s core functions `detectGap`,
`splitData` and the channel-identifier parsing of `data2obspy`.

Timestamps and data values are modelled as exact rationals (`ℚ`), with
timestamps measured in seconds.  `matplotlib.dates.drange` and
`numpy.interp` act on day-number floats in the source; both are invariant
under the affine rescaling seconds → days, so the model works in seconds
throughout.  `drange(s, e, δ)` follows its documented half-open contract:
the points `s + k·δ` for `0 ≤ k < ⌈(e − s)/δ⌉`, all strictly below `e`.
-/

/-- `numpy.diff`: consecutive differences of a list. -/
def npDiff : List ℚ → List ℚ
  | a :: b :: l => (b - a) :: npDiff (b :: l)
  | _ => []

/-- `detectGap(date, gapThres)` (valveData.py): indices `i` of the
consecutive-difference vector with `date[i+1] - date[i] > gapThres`,
as produced by `numpy.where` (increasing order). -/
def detectGap (date : List ℚ) (gapThres : ℚ) : List ℕ :=
  (List.range (npDiff date).length).filter fun i =>
    decide (gapThres < (npDiff date).getD i 0)

/-- Python slice `l[s:e]` for nonnegative bounds. -/
def pySlice (l : List ℚ) (s e : ℕ) : List ℚ := (l.drop s).take (e - s)

/-- `matplotlib.dates.drange(s, e, δ)`: the half-open arithmetic grid
`s, s+δ, s+2δ, …` of `⌈(e−s)/δ⌉` points, every point `< e`. -/
def drange (s e δ : ℚ) : List ℚ :=
  (List.range (⌈(e - s) / δ⌉).toNat).map fun k : ℕ => s + (k : ℚ) * δ

/-- Interior of `numpy.interp`: linear interpolation past the first knot
`(x0, f0)`, clamping to the last value beyond the final knot. -/
def npInterpGo (x x0 f0 : ℚ) : List ℚ → List ℚ → ℚ
  | x1 :: xs, f1 :: fs =>
      if x ≤ x1 then f0 + (f1 - f0) * (x - x0) / (x1 - x0)
      else npInterpGo x x1 f1 xs fs
  | _, _ => f0

/-- `numpy.interp(x, xp, fp)`: piecewise-linear interpolation with clamping
at both ends (strictly increasing `xp` assumed by the caller). -/
def npInterp (x : ℚ) : List ℚ → List ℚ → ℚ
  | x0 :: xs, f0 :: fs => if x ≤ x0 then f0 else npInterpGo x x0 f0 xs fs
  | _, _ => 0

/-- The resampling block of `splitData`: grid by `drange`, values by
`numpy.interp` of the segment's samples onto the grid. -/
def resamp (xp fp : List ℚ) (gs ge δ : ℚ) : List ℚ × List ℚ :=
  let grid := drange gs ge δ
  (grid, grid.map fun x => npInterp x xp fp)

/-- `splitData(date, data, gapIndex, delta, resample)` (valveData.py):
cuts the series at the gap indices and optionally resamples each piece.
Returns `(slicedDates, slicedData)`.  Python's `date[startSamp:-1]`
trailing slices appear as `pySlice · startSamp (length − 1)`; the
`endSamp - startSamp <= 1` and `datalen > 1` guards are integer
comparisons, taken over `ℤ` as in the source. -/
def splitData (date data : List ℚ) (gapIndex : List ℕ) (δ : ℚ)
    (resample : Bool) : List (List ℚ) × List (List ℚ) :=
  if data.length = 0 then ([], []) else
  let segs : List (List ℚ × List ℚ) :=
    (List.range gapIndex.length).filterMap fun ind =>
      let startSamp : ℕ := if ind = 0 then 0 else gapIndex.getD (ind - 1) 0 + 1
      let endSamp : ℕ := gapIndex.getD ind 0 + 1
      if (endSamp : ℤ) - (startSamp : ℤ) ≤ 1 then none
      else if resample then
        some (resamp (pySlice date startSamp endSamp)
          (pySlice data startSamp endSamp)
          (date.getD startSamp 0) (date.getD (endSamp - 1) 0) δ)
      else
        some (pySlice date startSamp endSamp, pySlice data startSamp endSamp)
  let tailSegs : List (List ℚ × List ℚ) :=
    if 0 < gapIndex.length then
      let g := gapIndex.getLastD 0
      let startSamp := g + 1
      if 1 < (data.length : ℤ) - (g : ℤ) then
        if resample then
          [resamp (pySlice date startSamp (date.length - 1))
            (pySlice data startSamp (data.length - 1))
            (date.getD startSamp 0) (date.getLastD 0) δ]
        else
          [(pySlice date startSamp (date.length - 1),
            pySlice data startSamp (data.length - 1))]
      else []
    else
      if resample then [resamp date data (date.headD 0) (date.getLastD 0) δ]
      else [(date, data)]
  ((segs ++ tailSegs).map Prod.fst, (segs ++ tailSegs).map Prod.snd)

/-- Sample count of the segments a `splitData` call drops: interior windows
whose `endSamp - startSamp <= 1` guard fires contribute their span, and the
trailing window contributes its samples when the `datalen > 1` guard fails.
Mirrors exactly the `continue`/skip branches of the source. -/
def droppedSamples (dataLen : ℕ) (gapIndex : List ℕ) : ℕ :=
  let interior := ((List.range gapIndex.length).map fun ind =>
    let startSamp : ℕ := if ind = 0 then 0 else gapIndex.getD (ind - 1) 0 + 1
    let endSamp : ℕ := gapIndex.getD ind 0 + 1
    if (endSamp : ℤ) - (startSamp : ℤ) ≤ 1 then endSamp - startSamp else 0).sum
  let tailDropped :=
    if 0 < gapIndex.length then
      if 1 < (dataLen : ℤ) - (gapIndex.getLastD 0 : ℤ) then 0
      else dataLen - (gapIndex.getLastD 0 + 1)
    else 0
  interior + tailDropped

/-- Python `str.split(sep)` without a split limit, on a character list:
cut at every separator; the empty string splits to `[""]`. -/
def strSplitAll (sep : Char) : List Char → List (List Char)
  | [] => [[]]
  | c :: cs =>
    if c = sep then [] :: strSplitAll sep cs
    else
      match strSplitAll sep cs with
      | [] => [[c]]
      | p :: ps => (c :: p) :: ps

/-- Rejoin split parts with the separator between them. -/
def joinWith (sep : Char) : List (List Char) → List Char
  | [] => []
  | [p] => p
  | p :: ps => p ++ sep :: joinWith sep ps

/-- Python `name.split(sep, maxsplit)`: at most `maxsplit` cuts are made,
the uncut remainder (separators included) forms the last part. -/
def pySplit (sep : Char) (maxsplit : ℕ) (l : List Char) : List (List Char) :=
  let parts := strSplitAll sep l
  if parts.length ≤ maxsplit + 1 then parts
  else parts.take maxsplit ++ [joinWith sep (parts.drop maxsplit)]

/-- Python tuple unpacking `a, b, c, d = xs`: succeeds exactly on length 4;
a failure raises `ValueError`, modelled as `none`. -/
def unpack4 {α : Type} : List α → Option (α × α × α × α)
  | [a, b, c, d] => some (a, b, c, d)
  | _ => none

/-- Python tuple unpacking `a, b, c = xs` (`none` = `ValueError`). -/
def unpack3 {α : Type} : List α → Option (α × α × α)
  | [a, b, c] => some (a, b, c)
  | _ => none

/-- Python tuple unpacking `a, b = xs` (`none` = `ValueError`). -/
def unpack2 {α : Type} : List α → Option (α × α)
  | [a, b] => some (a, b)
  | _ => none

/-- The identifier-parsing cascade of `data2obspy` (valveData.py): try
`name.split('$', 4)` into the four names, on `ValueError` try
`split('$', 3)` with `loc = ''`, then `split('$', 2)` with
`net = loc = ''`, and finally the whole string as the station.
Returns `(sta, chan, net, loc)`. -/
def parseId (name : List Char) :
    List Char × List Char × List Char × List Char :=
  match unpack4 (pySplit '$' 4 name) with
  | some (sta, chan, net, loc) => (sta, chan, net, loc)
  | none =>
    match unpack3 (pySplit '$' 3 name) with
    | some (sta, chan, net) => (sta, chan, net, [])
    | none =>
      match unpack2 (pySplit '$' 2 name) with
      | some (sta, chan) => (sta, chan, [], [])
      | none => (name, [], [], [])

/-! ## Helper lemmas -/

theorem npDiff_length (l : List ℚ) : (npDiff l).length = l.length - 1 := by
  induction l with
  | nil => rfl
  | cons a l ih =>
    cases l with
    | nil => rfl
    | cons b m => simpa [npDiff] using ih

theorem npDiff_getD (l : List ℚ) (i : ℕ) (h : i + 1 < l.length) :
    (npDiff l).getD i 0 = l.getD (i + 1) 0 - l.getD i 0 := by
  induction l generalizing i with
  | nil => simp at h
  | cons a l ih =>
    cases l with
    | nil => simp at h
    | cons b m =>
      cases i with
      | zero => simp [npDiff]
      | succ j =>
        have hj : j + 1 < (b :: m).length := by
          simpa using Nat.lt_of_succ_lt_succ h
        simpa [npDiff] using ih j hj

theorem strSplitAll_length (sep : Char) (l : List Char) :
    (strSplitAll sep l).length = l.count sep + 1 := by
  induction l with
  | nil => simp [strSplitAll]
  | cons c cs ih =>
    by_cases hc : c = sep
    · simp [strSplitAll, hc, List.count_cons, ih]
    · cases hrec : strSplitAll sep cs with
      | nil => rw [hrec] at ih; simp at ih
      | cons p ps =>
        rw [hrec] at ih
        have hbeq : (c == sep) = false := by simpa using hc
        simp only [strSplitAll, if_neg hc, hrec, List.count_cons, hbeq,
          List.length_cons, if_false, Bool.false_eq_true] at *
        omega

theorem pySplit_length (sep : Char) (k : ℕ) (l : List Char) :
    (pySplit sep k l).length = min (strSplitAll sep l).length (k + 1) := by
  simp only [pySplit]
  split
  · omega
  · simp only [List.length_append, List.length_take, List.length_cons,
      List.length_nil]
    omega

theorem unpack4_none {α : Type} :
    ∀ xs : List α, xs.length ≠ 4 → unpack4 xs = none
  | [], _ => rfl
  | [_], _ => rfl
  | [_, _], _ => rfl
  | [_, _, _], _ => rfl
  | [_, _, _, _], h => absurd rfl h
  | _ :: _ :: _ :: _ :: _ :: _, _ => rfl

theorem unpack3_none {α : Type} :
    ∀ xs : List α, xs.length ≠ 3 → unpack3 xs = none
  | [], _ => rfl
  | [_], _ => rfl
  | [_, _], _ => rfl
  | [_, _, _], h => absurd rfl h
  | _ :: _ :: _ :: _ :: _, _ => rfl

theorem unpack2_none {α : Type} :
    ∀ xs : List α, xs.length ≠ 2 → unpack2 xs = none
  | [], _ => rfl
  | [_], _ => rfl
  | [_, _], h => absurd rfl h
  | _ :: _ :: _ :: _, _ => rfl

/-! ## Claim theorems -/

/-- Claim C2: `detectGap` returns exactly the indices `i` with
`date[i+1] - date[i] > gapThres`, in strictly increasing order; in
particular the result is empty when no consecutive difference exceeds
the threshold. -/
theorem detectGap_exact (date : List ℚ) (T : ℚ) :
    (∀ i, i ∈ detectGap date T ↔
      i + 1 < date.length ∧ T < date.getD (i + 1) 0 - date.getD i 0)
    ∧ (detectGap date T).Sorted (· < ·)
    ∧ ((∀ i, i + 1 < date.length → date.getD (i + 1) 0 - date.getD i 0 ≤ T) →
        detectGap date T = []) := by
  have hmem : ∀ i, i ∈ detectGap date T ↔
      i + 1 < date.length ∧ T < date.getD (i + 1) 0 - date.getD i 0 := by
    intro i
    simp only [detectGap, List.mem_filter, List.mem_range, decide_eq_true_eq]
    constructor
    · rintro ⟨hr, hd⟩
      have hlen := npDiff_length date
      have h1 : i + 1 < date.length := by omega
      exact ⟨h1, by rwa [npDiff_getD date i h1] at hd⟩
    · rintro ⟨h1, hd⟩
      have hlen := npDiff_length date
      exact ⟨by omega, by rwa [npDiff_getD date i h1]⟩
  refine ⟨hmem, (List.pairwise_lt_range _).filter _, fun hall => ?_⟩
  rw [List.eq_nil_iff_forall_not_mem]
  intro i hi
  rcases (hmem i).1 hi with ⟨h1, hd⟩
  exact absurd hd (not_lt.2 (hall i h1))

/-- Claim C9: an empty input series yields the empty pair of segment
lists, for any gap index set, interval and resample flag, as a normal
return value. -/
theorem splitData_empty_input (gapIndex : List ℕ) (δ : ℚ) (resample : Bool) :
    splitData [] [] gapIndex δ resample = ([], []) := rfl

/-- Claim C8: with no gap indices and resampling disabled, a non-empty
series comes back as exactly one segment equal to the whole input. -/
theorem splitData_no_gap_single (date data : List ℚ) (δ : ℚ) (h : data ≠ []) :
    splitData date data [] δ false = ([date], [data]) := by
  have hl : data.length ≠ 0 := by simpa using h
  simp [splitData, hl]

/-- Witness for `splitData_no_gap_single` at a concrete series. -/
theorem splitData_no_gap_single_witness :
    splitData [0] [1] [] 60 false = ([[0]], [[1]]) :=
  splitData_no_gap_single [0] [1] 60 (by simp)

/-- Claim C10: an identifier with four or more delimiters defeats every
unpacking attempt of the cascade (its splits have 5, 4 and 3 parts), so
the whole unsplit string lands in the station field and the other three
fields are empty. -/
theorem parseId_overfull (name : List Char) (h : 4 ≤ name.count '$') :
    parseId name = (name, [], [], []) := by
  have hs := strSplitAll_length '$' name
  have h4 : (pySplit '$' 4 name).length = 5 := by rw [pySplit_length]; omega
  have h3 : (pySplit '$' 3 name).length = 4 := by rw [pySplit_length]; omega
  have h2 : (pySplit '$' 2 name).length = 3 := by rw [pySplit_length]; omega
  have g4 : unpack4 (pySplit '$' 4 name) = none := unpack4_none _ (by omega)
  have g3 : unpack3 (pySplit '$' 3 name) = none := unpack3_none _ (by omega)
  have g2 : unpack2 (pySplit '$' 2 name) = none := unpack2_none _ (by omega)
  simp [parseId, g4, g3, g2]

/-- Witness for `parseId_overfull` on a five-token identifier. -/
theorem parseId_overfull_witness :
    4 ≤ ("A$B$C$D$E".data).count '$'
    ∧ parseId ("A$B$C$D$E".data) = ("A$B$C$D$E".data, [], [], []) :=
  ⟨by decide, parseId_overfull _ (by decide)⟩

/-- Claim C7: `"NPT$HWZ$HV"` parses to station `NPT`, channel `HWZ`,
network `HV`, empty location; `"FLYA"` parses to station `FLYA` with the
other fields empty; in general three tokens default the location, two
tokens default network and location, and a delimiter-free identifier goes
whole into the station field. -/
theorem parseId_cases :
    parseId ("NPT$HWZ$HV".data) = ("NPT".data, "HWZ".data, "HV".data, [])
    ∧ parseId ("FLYA".data) = ("FLYA".data, [], [], [])
    ∧ (∀ name : List Char, (strSplitAll '$' name).length = 3 →
        ∃ a b c, strSplitAll '$' name = [a, b, c] ∧ parseId name = (a, b, c, []))
    ∧ (∀ name : List Char, (strSplitAll '$' name).length = 2 →
        ∃ a b, strSplitAll '$' name = [a, b] ∧ parseId name = (a, b, [], []))
    ∧ (∀ name : List Char, name.count '$' = 0 →
        parseId name = (name, [], [], [])) := by
  refine ⟨by decide, by decide, ?_, ?_, ?_⟩
  · intro name h
    obtain ⟨a, b, c, hsp⟩ := List.length_eq_three.1 h
    have hp4 : pySplit '$' 4 name = [a, b, c] := by simp [pySplit, hsp]
    have hp3 : pySplit '$' 3 name = [a, b, c] := by simp [pySplit, hsp]
    have g4 : unpack4 (pySplit '$' 4 name) = none := by rw [hp4]; rfl
    refine ⟨a, b, c, hsp, ?_⟩
    simp [parseId, g4, hp3, unpack3]
  · intro name h
    obtain ⟨a, b, hsp⟩ := List.length_eq_two.1 h
    have hp4 : pySplit '$' 4 name = [a, b] := by simp [pySplit, hsp]
    have hp3 : pySplit '$' 3 name = [a, b] := by simp [pySplit, hsp]
    have hp2 : pySplit '$' 2 name = [a, b] := by simp [pySplit, hsp]
    have g4 : unpack4 (pySplit '$' 4 name) = none := by rw [hp4]; rfl
    have g3 : unpack3 (pySplit '$' 3 name) = none := by rw [hp3]; rfl
    refine ⟨a, b, hsp, ?_⟩
    simp [parseId, g4, g3, hp2, unpack2]
  · intro name h
    have hs := strSplitAll_length '$' name
    rw [h] at hs
    obtain ⟨a, hsp⟩ := List.length_eq_one.1 hs
    have hp4 : pySplit '$' 4 name = [a] := by simp [pySplit, hsp]
    have hp3 : pySplit '$' 3 name = [a] := by simp [pySplit, hsp]
    have hp2 : pySplit '$' 2 name = [a] := by simp [pySplit, hsp]
    have g4 : unpack4 (pySplit '$' 4 name) = none := by rw [hp4]; rfl
    have g3 : unpack3 (pySplit '$' 3 name) = none := by rw [hp3]; rfl
    have g2 : unpack2 (pySplit '$' 2 name) = none := by rw [hp2]; rfl
    simp [parseId, g4, g3, g2]

/-- Claim C1 (code bug): at gap threshold 50 the series
`[0, 1, 100, 101, 102]` has its single gap at index 1, so the trailing
segment should hold the samples at indices 2, 3 and 4 — but `splitData`
returns `[12, 13]` for it: the sample `14` at the true last index is cut
off by the source's `data[startSamp:-1]` slice. -/
theorem splitData_trailing_drops_last :
    detectGap [0, 1, 100, 101, 102] 50 = [1]
    ∧ splitData [0, 1, 100, 101, 102] [10, 11, 12, 13, 14] [1] 60 false
        = ([[0, 1], [100, 101]], [[10, 11], [12, 13]])
    ∧ (14 : ℚ) ∉ ([12, 13] : List ℚ) := by
  refine ⟨?_, ?_, by decide⟩
  · norm_num [detectGap, npDiff, List.range_succ, List.filter_append]
  · norm_num [splitData, pySlice, List.range_succ, List.filterMap_append,
      List.filterMap_cons]

/-- Claim C3 (code bug): on `[0, 1, 100, 101, 102]` with the gap at
index 1 and resampling disabled, the returned segments hold 2 + 2 = 4
samples and no segment is dropped, yet the input holds 5 samples: the
trailing slice loses the final sample, breaking segment coverage. -/
theorem splitData_coverage_deficit :
    ((splitData [0, 1, 100, 101, 102] [10, 11, 12, 13, 14] [1] 60 false).2.map
        List.length).sum
      + droppedSamples ([10, 11, 12, 13, 14] : List ℚ).length [1]
      ≠ ([10, 11, 12, 13, 14] : List ℚ).length := by
  have hsp : splitData [0, 1, 100, 101, 102] [10, 11, 12, 13, 14] [1] 60 false
      = ([[0, 1], [100, 101]], [[10, 11], [12, 13]]) := by
    norm_num [splitData, pySlice, List.range_succ, List.filterMap_append,
      List.filterMap_cons]
  rw [hsp]
  norm_num [droppedSamples, List.range_succ]

/-- Claim C4 (code bug): on `[0, 1, 100]` with the gap at index 1 and
resampling disabled, the trailing span after the gap holds one sample,
yet `splitData` emits an empty segment for it instead of discarding it:
the `datalen > 1` guard tests `len(data) - gapIndex[-1]`, one more than
the trailing slice's real size. -/
theorem splitData_keeps_degenerate_trailing :
    splitData [0, 1, 100] [5, 6, 7] [1] 60 false = ([[0, 1], []], [[5, 6], []])
    ∧ ∃ seg ∈ (splitData [0, 1, 100] [5, 6, 7] [1] 60 false).2,
        seg.length < 2 := by
  have hsp : splitData [0, 1, 100] [5, 6, 7] [1] 60 false
      = ([[0, 1], []], [[5, 6], []]) := by
    norm_num [splitData, pySlice, List.range_succ, List.filterMap_append,
      List.filterMap_cons]
  exact ⟨hsp, [], by rw [hsp]; simp, by simp⟩

/-- Claim C5, counterexample: the segment `[0, 100]` spans `D = 100`; at
`δ = 60` the emitted grid is `[0, 60]` with 2 points, not
`⌊D/δ⌋ = 1` point as the claim states. -/
theorem resample_grid_not_floor :
    (splitData [0, 100] [1, 2] [] 60 true).1.map List.length = [2]
    ∧ (⌊((100 : ℚ) - 0) / 60⌋).toNat = 1
    ∧ ¬ ((splitData [0, 100] [1, 2] [] 60 true).1.map List.length
          = [(⌊((100 : ℚ) - 0) / 60⌋).toNat]) := by
  have hc : (⌈(5 : ℚ) / 3⌉).toNat = 2 := by
    have h2 : (⌈(5 : ℚ) / 3⌉) = 2 := by
      rw [Int.ceil_eq_iff]
      norm_num
    rw [h2]; rfl
  have hsp : (splitData [0, 100] [1, 2] [] 60 true).1 = [[0, 60]] := by
    norm_num [splitData, resamp, drange, npInterp, npInterpGo, pySlice,
      List.range_succ, hc]
  have hfl : (⌊((100 : ℚ) - 0) / 60⌋).toNat = 1 := by
    have h1 : (⌊((100 : ℚ) - 0) / 60⌋) = 1 := by norm_num
    rw [h1]; rfl
  rw [hsp]
  refine ⟨by simp, hfl, ?_⟩
  have h1 : (⌊(100 : ℚ) / 60⌋) = 1 := by norm_num
  simp [h1]

/-- Claim C5 (amended): resampling a segment running from `gs` to `ge` at
interval `δ > 0` produces the half-open grid of `⌈(ge − gs)/δ⌉` points
(not `⌊(ge − gs)/δ⌋`): it starts at the segment's first timestamp `gs`,
steps by `δ`, and every grid timestamp lies in `[gs, ge)`. -/
theorem resamp_grid_halfopen (xp fp : List ℚ) (gs ge δ : ℚ)
    (hδ : 0 < δ) (hlt : gs < ge) :
    (resamp xp fp gs ge δ).1
        = (List.range (⌈(ge - gs) / δ⌉).toNat).map (fun k : ℕ => gs + (k : ℚ) * δ)
    ∧ (resamp xp fp gs ge δ).1.length = (⌈(ge - gs) / δ⌉).toNat
    ∧ (resamp xp fp gs ge δ).1.headD 0 = gs
    ∧ ∀ t ∈ (resamp xp fp gs ge δ).1, gs ≤ t ∧ t < ge := by
  have hpos : 0 < (⌈(ge - gs) / δ⌉ : ℤ) :=
    Int.ceil_pos.2 (div_pos (by linarith) hδ)
  have hlen : (resamp xp fp gs ge δ).1.length = (⌈(ge - gs) / δ⌉).toNat := by
    show (drange gs ge δ).length = _
    rw [drange, List.length_map, List.length_range]
  refine ⟨rfl, hlen, ?_, ?_⟩
  · obtain ⟨m, hm⟩ : ∃ m, (⌈(ge - gs) / δ⌉).toNat = m + 1 :=
      ⟨(⌈(ge - gs) / δ⌉).toNat - 1, by omega⟩
    show (drange gs ge δ).headD 0 = gs
    rw [drange, hm, List.range_succ_eq_map]
    simp
  · intro t ht
    have ht' : t ∈ (List.range (⌈(ge - gs) / δ⌉).toNat).map
        (fun k : ℕ => gs + (k : ℚ) * δ) := ht
    rw [List.mem_map] at ht'
    obtain ⟨k, hk, rfl⟩ := ht'
    rw [List.mem_range] at hk
    have hk0 : (0 : ℚ) ≤ (k : ℚ) * δ :=
      mul_nonneg (Nat.cast_nonneg k) hδ.le
    refine ⟨by linarith, ?_⟩
    have hkz : (k : ℤ) + 1 ≤ ⌈(ge - gs) / δ⌉ := by omega
    have hkq : (k : ℚ) + 1 ≤ ((⌈(ge - gs) / δ⌉ : ℤ) : ℚ) := by
      exact_mod_cast hkz
    have hceil : ((⌈(ge - gs) / δ⌉ : ℤ) : ℚ) < (ge - gs) / δ + 1 :=
      Int.ceil_lt_add_one _
    have hklt : (k : ℚ) < (ge - gs) / δ := by linarith
    have hmul : (k : ℚ) * δ < (ge - gs) / δ * δ :=
      mul_lt_mul_of_pos_right hklt hδ
    rw [div_mul_cancel₀ _ (ne_of_gt hδ)] at hmul
    linarith

/-- Witness for `resamp_grid_halfopen` on the segment `[0, 100]` at
interval 60. -/
theorem resamp_grid_halfopen_witness :
    (0 : ℚ) < 60 ∧ (0 : ℚ) < 100
    ∧ ((resamp [0, 100] [1, 2] 0 100 60).1
          = (List.range (⌈((100 : ℚ) - 0) / 60⌉).toNat).map
              (fun k : ℕ => 0 + (k : ℚ) * 60)
        ∧ (resamp [0, 100] [1, 2] 0 100 60).1.length
            = (⌈((100 : ℚ) - 0) / 60⌉).toNat
        ∧ (resamp [0, 100] [1, 2] 0 100 60).1.headD 0 = 0
        ∧ ∀ t ∈ (resamp [0, 100] [1, 2] 0 100 60).1, (0 : ℚ) ≤ t ∧ t < 100) :=
  ⟨by norm_num, by norm_num,
    resamp_grid_halfopen [0, 100] [1, 2] 0 100 60 (by norm_num) (by norm_num)⟩

/-- Claim C6, counterexample: on the end-to-end scenario the two returned
segments carry 2 grid points each, not 3 (the half-open `drange` bound
excludes each segment's final timestamp in exact arithmetic). -/
theorem endToEnd_not_three_points :
    ¬ ((splitData [0, 60, 120, 300, 360, 420] [1, 2, 3, 4, 5, 6]
          (detectGap [0, 60, 120, 300, 360, 420] 120) 60 true).2.map
            List.length = [3, 3]) := by
  have hg : detectGap [0, 60, 120, 300, 360, 420] 120 = [2] := by
    norm_num [detectGap, npDiff, List.range_succ, List.filter_append]
  have h2 : Int.toNat 2 = 2 := rfl
  have hsp : splitData [0, 60, 120, 300, 360, 420] [1, 2, 3, 4, 5, 6] [2] 60 true
      = ([[0, 60], [300, 360]], [[1, 2], [4, 5]]) := by
    norm_num [splitData, resamp, drange, npInterp, npInterpGo, pySlice,
      List.range_succ, List.filterMap_append, List.filterMap_cons, h2]
  rw [hg, hsp]
  simp

/-- Claim C6 (amended): for timestamps `[0, 60, 120, 300, 360, 420]` with
values `[1, 2, 3, 4, 5, 6]` and threshold 120, `detectGap` flags exactly
index 2; `splitData` with `delta = 60` and resampling on returns two
segments of 2 grid points each, whose values `[1, 2]` and `[4, 5]` equal
the original values at those grid timestamps. -/
theorem endToEnd_two_points :
    detectGap [0, 60, 120, 300, 360, 420] 120 = [2]
    ∧ splitData [0, 60, 120, 300, 360, 420] [1, 2, 3, 4, 5, 6] [2] 60 true
        = ([[0, 60], [300, 360]], [[1, 2], [4, 5]]) := by
  have h2 : Int.toNat 2 = 2 := rfl
  constructor
  · norm_num [detectGap, npDiff, List.range_succ, List.filter_append]
  · norm_num [splitData, resamp, drange, npInterp, npInterpGo, pySlice,
      List.range_succ, List.filterMap_append, List.filterMap_cons, h2]
